import Mathlib

/-!
# Verification of the CDC subsystem of `rdbms_graph_rag`

Shallow embedding of the change-data-capture core: the normalized
`ChangeEvent` model (`src/cdc/base.py`), the wal2json payload parser and
message processing of the PostgreSQL listener (`src/cdc/postgres_listener.py`),
the coordinating manager with batching, dispatch and metrics
(`src/cdc/manager.py`), and the graph-sync handler (`src/cdc/handlers.py`).

Python dictionaries decoded from JSON are modelled as insertion-ordered
association lists over a `JsonVal` value type; Python truthiness is modelled
explicitly; code that may raise is modelled with `Option`/`Except`; the
manager's lock acquisitions and handler invocations are recorded in an
explicit action trace so that lock-discipline properties can be stated.
-/

namespace CDC

/-- A JSON value as produced by `json.loads`: the payload format of wal2json. -/
inductive JsonVal where
  | null : JsonVal
  | bool (b : Bool) : JsonVal
  | num (n : Int) : JsonVal
  | str (s : String) : JsonVal
  | arr (xs : List JsonVal) : JsonVal
  | obj (fields : List (JsonVal × JsonVal)) : JsonVal

mutual

/-- Structural equality of JSON values (Python `==` on decoded values). -/
def JsonVal.beq : JsonVal → JsonVal → Bool
  | .null, .null => true
  | .bool a, .bool b => a == b
  | .num a, .num b => a == b
  | .str a, .str b => a == b
  | .arr xs, .arr ys => JsonVal.beqList xs ys
  | .obj xs, .obj ys => JsonVal.beqFields xs ys
  | _, _ => false

/-- Elementwise equality of JSON arrays. -/
def JsonVal.beqList : List JsonVal → List JsonVal → Bool
  | [], [] => true
  | x :: xs, y :: ys => JsonVal.beq x y && JsonVal.beqList xs ys
  | _, _ => false

/-- Pairwise equality of JSON object field lists. -/
def JsonVal.beqFields : List (JsonVal × JsonVal) → List (JsonVal × JsonVal) → Bool
  | [], [] => true
  | (k, v) :: xs, (k', v') :: ys =>
      JsonVal.beq k k' && JsonVal.beq v v' && JsonVal.beqFields xs ys
  | _, _ => false

end

instance : BEq JsonVal := ⟨JsonVal.beq⟩

/-- Python truthiness of a decoded JSON value (`if x:`): `None`, `False`, `0`,
`""`, `[]` and `{}` are falsy, everything else truthy. -/
def JsonVal.truthy : JsonVal → Bool
  | .null => false
  | .bool b => b
  | .num n => n != 0
  | .str s => s ≠ ""
  | .arr xs => !xs.isEmpty
  | .obj fs => !fs.isEmpty

/-- A Python dict decoded from JSON: insertion-ordered association list. -/
abbrev Jdict := List (JsonVal × JsonVal)

namespace Jdict

/-- `d.get(k)` / `k in d`: first binding of `k`. -/
def lookup : Jdict → JsonVal → Option JsonVal
  | [], _ => none
  | (k', v) :: rest, k => if k' == k then some v else lookup rest k

/-- `d[k] = v`: update in place if the key exists, else append (Python dict
assignment preserves insertion order of an existing key). -/
def insert : Jdict → JsonVal → JsonVal → Jdict
  | [], k, v => [(k, v)]
  | (k', v') :: rest, k, v =>
      if k' == k then (k', v) :: rest else (k', v') :: insert rest k v

end Jdict

/-- Whether a JSON value can be a Python dict key (hashable: not a list/dict). -/
def JsonVal.hashable : JsonVal → Bool
  | .arr _ => false
  | .obj _ => false
  | _ => true

/-- `ChangeOperation` from `src/cdc/base.py`: types of database operations. -/
inductive ChangeOperation where
  | insert
  | update
  | delete
  | truncate
  | ddl
deriving DecidableEq

/-- `ChangeEvent` from `src/cdc/base.py`: the unified change event format.
Values decoded from the JSON payload keep their `JsonVal` type (Python is
dynamically typed: e.g. `table` is whatever the payload carried). The
`timestamp` is an abstract clock value. -/
structure ChangeEvent where
  operation : ChangeOperation
  table : JsonVal
  schema : JsonVal
  timestamp : Nat
  database_type : String
  old_data : Option Jdict := none
  new_data : Option Jdict := none
  primary_key : Option Jdict := none
  ddl_statement : Option String := none
  transaction_id : JsonVal := .null
  lsn : JsonVal := .null
  position : Option String := none
  metadata : List (String × JsonVal) := []

/-! ## PostgreSQL listener — `src/cdc/postgres_listener.py`

The listener's connection, replication cursor and threads are external; the
embedded state keeps the fields the parsing/position logic reads:
`slot_name`, `publication_name`, `current_position`, `is_running`.
`json.loads` is modelled by handing the parser an already-decoded
`Option JsonVal` (`none` = the payload was not valid JSON, which the code
catches as `json.JSONDecodeError` and turns into `None`). `dateutil` parsing
is abstracted by a `parseTs` parameter; a failed parse falls back to the
receipt clock `now`, as in the code. -/

structure PGListenerState where
  slot_name : String
  publication_name : String
  current_position : Option String
  is_running : Bool

/-- The dict comprehension `{col[name]: col.get(value) for col in cols}`
over a `columns`/`identity` array: every element must be a dict carrying a
hashable `name` key, otherwise the comprehension raises (and the whole parse
returns `None`). A missing `value` key defaults to `None`. -/
def buildColsDict : List JsonVal → Jdict → Option Jdict
  | [], acc => some acc
  | .obj fields :: rest, acc =>
      match Jdict.lookup fields (.str "name") with
      | some nameVal =>
          if nameVal.hashable then
            buildColsDict rest
              (acc.insert nameVal ((Jdict.lookup fields (.str "value")).getD .null))
          else none
      | none => none
  | _ :: _, _ => none

/-- Build a data dict from the raw JSON value under `columns`/`identity`:
anything but an array makes the comprehension raise. -/
def buildDataDict : JsonVal → Option Jdict
  | .arr cols => buildColsDict cols []
  | _ => none

/-- `_extract_pk_from_data`: assume a column literally named `id`. -/
def extract_pk_from_data (data : Jdict) : Option Jdict :=
  match Jdict.lookup data (.str "id") with
  | some v => some [(.str "id", v)]
  | none => none

/-- The `action_map` of `_parse_wal2json`: wal2json action code → operation. -/
def action_map : JsonVal → Option ChangeOperation
  | .str "I" => some .insert
  | .str "U" => some .update
  | .str "D" => some .delete
  | .str "T" => some .truncate
  | _ => none

/-- The optional data-dict under `key` (`columns`/`identity`): `none` result
means an exception escaped the comprehension; `some none` means the key was
absent (Python `None`); `some (some d)` is a built dict. -/
def optDataDict (change : Jdict) (key : String) : Option (Option Jdict) :=
  match Jdict.lookup change (.str key) with
  | none => some none
  | some v => (buildDataDict v).map some

/-- Python truthiness of an `Optional[dict]`: `None` and `{}` are falsy. -/
def optDictTruthy : Option Jdict → Bool
  | some d => !d.isEmpty
  | none => false

/-- The tail of `_parse_wal2json` (postgres_listener.py lines 260-305), once
the action has been mapped to `operation` and the table check has passed:
build `new_data`/`old_data` from the `columns`/`identity` arrays (a raised
comprehension makes the whole parse return `None`), derive the primary key,
the timestamp and the LSN, and assemble the event. -/
def parse_change_data (st : PGListenerState) (data change : Jdict)
    (operation : ChangeOperation) (schemaVal tableVal : JsonVal)
    (parseTs : JsonVal → Option Nat) (now : Nat) : Option ChangeEvent :=
  match optDataDict change "columns", optDataDict change "identity" with
  | some new_data, some old_data =>
    let primary_key :=
      if optDictTruthy old_data then old_data
      else if optDictTruthy new_data then extract_pk_from_data (new_data.getD [])
      else none
    let timestamp :=
      match Jdict.lookup change (.str "timestamp") with
      | some tv => (parseTs tv).getD now
      | none => now
    let lsnRaw := (Jdict.lookup change (.str "lsn")).getD .null
    let lsn :=
      if lsnRaw.truthy then lsnRaw
      else match st.current_position with
           | some p => .str p
           | none => .null
    some {
      operation := operation
      table := tableVal
      schema := schemaVal
      timestamp := timestamp
      database_type := "postgres"
      old_data := old_data
      new_data := new_data
      primary_key := primary_key
      lsn := lsn
      transaction_id := (Jdict.lookup data (.str "xid")).getD .null
      metadata := [
        ("publication", .str st.publication_name),
        ("slot", .str st.slot_name),
        ("plugin", .str "wal2json"),
        ("nextlsn", (Jdict.lookup data (.str "nextlsn")).getD .null)]
    }
  | _, _ => none

/-- The body of `_parse_wal2json` after the `change` record has been selected
out of the decoded payload `data` (lines 234-305). Any path on which the
Python code raises — and its catch-all handler returns `None` — yields
`none`. -/
def parse_change_record (st : PGListenerState) (data change : Jdict)
    (parseTs : JsonVal → Option Nat) (now : Nat) : Option ChangeEvent :=
  let aRaw := (Jdict.lookup change (.str "action")).getD .null
  let action := if aRaw.truthy then aRaw else (Jdict.lookup change (.str "kind")).getD .null
  if action == .str "B" || action == .str "C" then none
  else
    match action_map action with
    | none => none
    | some operation =>
      let schemaVal := (Jdict.lookup change (.str "schema")).getD (.str "public")
      let tableVal := (Jdict.lookup change (.str "table")).getD .null
      if !tableVal.truthy then none
      else parse_change_data st data change operation schemaVal tableVal parseTs now

/-- `_parse_wal2json`: select the change record — either the first element of
a wrapped `change` list, or the flat payload itself — then parse it.
`decoded = none` models a payload that is not valid JSON. -/
def parse_wal2json (st : PGListenerState) (decoded : Option JsonVal)
    (parseTs : JsonVal → Option Nat) (now : Nat) : Option ChangeEvent :=
  match decoded with
  | none => none
  | some data =>
    match data with
    | .obj d =>
        match Jdict.lookup d (.str "change") with
        | some v =>
            if v.truthy then
              match v with
              | .arr (h :: _) =>
                  (match h with
                   | .obj c => parse_change_record st d c parseTs now
                   | _ => none)
              | _ => none
            else none
        | none => parse_change_record st d d parseTs now
    | _ => none

/-- A replication message as read from the cursor: its WAL offset
(`data_start`) and its payload, already decoded (`none` = invalid JSON). -/
structure ReplMessage where
  data_start : Nat
  payload : Option JsonVal

/-- `_process_message`: update `current_position` from the message's raw
offset, then parse; if an event was parsed, invoke the callback (whose
exception, like a `send_feedback` failure, is caught and logged). Returns the
new listener state, the parsed event, and the callback's outcome. -/
def process_message (st : PGListenerState) (msg : ReplMessage)
    (callback : ChangeEvent → Except String Unit)
    (parseTs : JsonVal → Option Nat) (now : Nat) :
    PGListenerState × Option ChangeEvent × Option (Except String Unit) :=
  let st' := { st with current_position := some (Nat.repr msg.data_start) }
  let event := parse_wal2json st' msg.payload parseTs now
  (st', event, event.map callback)

/-! ## CDC manager — `src/cdc/manager.py`

Handlers and listeners are external objects; each is embedded as a record of
the behaviours the manager observes: a predicate `can_handle`, the fallible
calls `handle_batch`/`handle_change`, and for listeners the fallible
`setup`/`stop_streaming`. Manager execution is modelled as explicit state
passing; every lock acquisition/release and every handler invocation is
recorded in an action trace, in program order, so that lock discipline and
flush counts are statable. -/

/-- The extra field of a metrics error record: `_process_batch` stores the
`event_count`, `_process_event` stores `str(event)` (the event itself is
carried; its Python rendering is not modelled). -/
inductive ErrorDetail where
  | batchDetail (event_count : Nat)
  | eventDetail (event : ChangeEvent)

/-- An entry of `metrics[errors]`. -/
structure ErrorRecord where
  handler : String
  error : String
  timestamp : Nat
  detail : ErrorDetail

/-- The manager's `metrics` dict. -/
structure Metrics where
  events_received : Nat := 0
  events_processed : Nat := 0
  events_failed : Nat := 0
  batches_processed : Nat := 0
  last_event_time : Option Nat := none
  errors : List ErrorRecord := []

/-- A registered handler, seen from the manager: its class name, its
`can_handle` predicate and its two fallible entry points. -/
structure Handler where
  name : String
  can_handle : ChangeEvent → Bool
  handle_batch : List ChangeEvent → Except String Unit
  handle_change : ChangeEvent → Except String Unit

/-- A registered listener, seen from the manager: the outcomes of the calls
the manager makes on it. -/
structure Listener where
  setup : Except String Unit
  stop_streaming : Except String Unit

/-- The mutable state of a `CDCManager`. `batch_thread` records whether a
batch thread object exists (set by `start_all` when batching is enabled). -/
structure MgrState where
  listeners : List (String × Listener) := []
  handlers : List Handler := []
  batch_size : Nat := 100
  batch_timeout : Nat := 5
  enable_batching : Bool := true
  event_queue : List ChangeEvent := []
  batch_thread : Bool := false
  metrics : Metrics := {}

/-- One observable step of manager execution: lock transitions, entering
`_process_batch` with a batch, and handler invocations. -/
inductive MgrAction where
  | acquireQueueLock
  | releaseQueueLock
  | acquireMetricsLock
  | releaseMetricsLock
  | processBatchCall (events : List ChangeEvent)
  | invokeHandleBatch (handler : String) (events : List ChangeEvent)
  | invokeHandleChange (handler : String) (event : ChangeEvent)

/-- The `for handler in self.handlers` loop of `_process_batch`: filter the
batch per handler, invoke `handle_batch` on a non-empty subset, then update
the metrics under the metrics lock — success and failure paths both acquire
it only after `handle_batch` has returned/raised. -/
def process_batch_loop (now : Nat) (events : List ChangeEvent) :
    List Handler → Metrics → Metrics × List MgrAction
  | [], m => (m, [])
  | h :: rest, m =>
    let handler_events := events.filter h.can_handle
    if handler_events.isEmpty then process_batch_loop now events rest m
    else
      match h.handle_batch handler_events with
      | .ok _ =>
        let m1 := { m with
          events_processed := m.events_processed + handler_events.length,
          batches_processed := m.batches_processed + 1 }
        let r := process_batch_loop now events rest m1
        (r.1, .invokeHandleBatch h.name handler_events ::
             .acquireMetricsLock :: .releaseMetricsLock :: r.2)
      | .error e =>
        let m1 := { m with
          events_failed := m.events_failed + handler_events.length,
          errors := m.errors ++ [⟨h.name, e, now, .batchDetail handler_events.length⟩] }
        let r := process_batch_loop now events rest m1
        (r.1, .invokeHandleBatch h.name handler_events ::
             .acquireMetricsLock :: .releaseMetricsLock :: r.2)

/-- `_process_batch`: early return on an empty batch, else run the handler
loop. A handler exception never escapes (the function is total and always
returns the updated state). -/
def process_batch (now : Nat) (st : MgrState) (events : List ChangeEvent) :
    MgrState × List MgrAction :=
  if events.isEmpty then (st, [])
  else
    let r := process_batch_loop now events st.handlers st.metrics
    ({ st with metrics := r.1 }, .processBatchCall events :: r.2)

/-- The `for handler in self.handlers` loop of `_process_event` (the
non-batching dispatch path). -/
def process_event_loop (now : Nat) (event : ChangeEvent) :
    List Handler → Metrics → Metrics × List MgrAction
  | [], m => (m, [])
  | h :: rest, m =>
    if h.can_handle event then
      match h.handle_change event with
      | .ok _ =>
        let m1 := { m with events_processed := m.events_processed + 1 }
        let r := process_event_loop now event rest m1
        (r.1, .invokeHandleChange h.name event ::
             .acquireMetricsLock :: .releaseMetricsLock :: r.2)
      | .error e =>
        let m1 := { m with
          events_failed := m.events_failed + 1,
          errors := m.errors ++ [⟨h.name, e, now, .eventDetail event⟩] }
        let r := process_event_loop now event rest m1
        (r.1, .invokeHandleChange h.name event ::
             .acquireMetricsLock :: .releaseMetricsLock :: r.2)
    else process_event_loop now event rest m

/-- `_process_event`: immediate single-event dispatch. -/
def process_event (now : Nat) (st : MgrState) (event : ChangeEvent) :
    MgrState × List MgrAction :=
  let r := process_event_loop now event st.handlers st.metrics
  ({ st with metrics := r.1 }, r.2)

/-- `_handle_change`: count the event under the metrics lock; with batching,
append to the queue under the queue lock and — still inside the `with
queue_lock` block — flush synchronously once the queue has reached
`batch_size`; without batching, dispatch immediately. -/
def handle_change (now : Nat) (st : MgrState) (event : ChangeEvent) :
    MgrState × List MgrAction :=
  let st0 := { st with metrics := { st.metrics with
    events_received := st.metrics.events_received + 1,
    last_event_time := some now } }
  let tr0 : List MgrAction := [.acquireMetricsLock, .releaseMetricsLock]
  if st0.enable_batching then
    let q := st0.event_queue ++ [event]
    if st0.batch_size ≤ q.length then
      let r := process_batch now { st0 with event_queue := [] } q
      (r.1, tr0 ++ .acquireQueueLock :: (r.2 ++ [.releaseQueueLock]))
    else
      ({ st0 with event_queue := q }, tr0 ++ [.acquireQueueLock, .releaseQueueLock])
  else
    let r := process_event now st0 event
    (r.1, tr0 ++ r.2)

/-- One timeout-triggered flush of `_batch_processor` (the body of the
`elapsed >= batch_timeout` branch, manager.py lines 169-176): the copy, the
clear and the `_process_batch` call all happen inside `with queue_lock`. -/
def batch_processor_flush (now : Nat) (st : MgrState) : MgrState × List MgrAction :=
  if st.event_queue.isEmpty then (st, [.acquireQueueLock, .releaseQueueLock])
  else
    let r := process_batch now { st with event_queue := [] } st.event_queue
    (r.1, .acquireQueueLock :: (r.2 ++ [.releaseQueueLock]))

/-- `stop_all`: stop every listener (exceptions logged and swallowed, no
manager-state effect), then — if a batch thread exists — signal it, join it,
and synchronously flush any residual queued events. -/
def stop_all (now : Nat) (st : MgrState) : MgrState × List MgrAction :=
  if st.batch_thread then
    if st.event_queue.isEmpty then (st, [])
    else
      let r := process_batch now st st.event_queue
      ({ r.1 with event_queue := [] }, r.2)
  else (st, [])

/-- The `batching` section of the `get_status` snapshot. -/
structure BatchingStatus where
  enabled : Bool
  batch_size : Nat
  batch_timeout : Nat
  queue_size : Nat

/-- The `get_status` snapshot (per-listener statuses are external
`listener.get_status()` calls and are not modelled). -/
structure MgrStatus where
  handlers : List String
  metrics : Metrics
  batching : BatchingStatus

/-- `get_status`. -/
def get_status (st : MgrState) : MgrStatus :=
  { handlers := st.handlers.map Handler.name
    metrics := st.metrics
    batching := {
      enabled := st.enable_batching
      batch_size := st.batch_size
      batch_timeout := st.batch_timeout
      queue_size := st.event_queue.length } }

/-- Outcome of `register_listener`: normal return, the `CDCError` raised for
a duplicate name, or the re-raised `listener.setup()` exception. -/
inductive RegResult where
  | ok
  | dupNameError (name : String)
  | setupFailed (msg : String)
deriving DecidableEq

/-- `register_listener`: reject duplicate names before touching the
registry; otherwise store the listener, then run `setup()` when
`auto_setup` — whose exception is re-raised *after* the registry insertion,
which is not rolled back. -/
def register_listener (st : MgrState) (name : String) (l : Listener)
    (auto_setup : Bool) : MgrState × RegResult :=
  if (st.listeners.lookup name).isSome then (st, .dupNameError name)
  else
    let st1 := { st with listeners := st.listeners ++ [(name, l)] }
    if auto_setup then
      match l.setup with
      | .ok _ => (st1, .ok)
      | .error e => (st1, .setupFailed e)
    else (st1, .ok)

/-! ### Lock discipline over traces -/

/-- Which locks are held at a point of a trace. -/
structure LockState where
  queue_held : Bool
  metrics_held : Bool

/-- Effect of one action on the held-locks state. -/
def stepLock : LockState → MgrAction → LockState
  | s, .acquireQueueLock => { s with queue_held := true }
  | s, .releaseQueueLock => { s with queue_held := false }
  | s, .acquireMetricsLock => { s with metrics_held := true }
  | s, .releaseMetricsLock => { s with metrics_held := false }
  | s, _ => s

/-- Scans a trace from lock state `s`: `true` iff at every `handle_batch`
invocation neither the queue lock nor the metrics lock is held. -/
def locksFreeAtBatchCalls : LockState → List MgrAction → Bool
  | _, [] => true
  | s, a :: rest =>
    (match a with
     | .invokeHandleBatch _ _ => !s.queue_held && !s.metrics_held
     | _ => true) && locksFreeAtBatchCalls (stepLock s a) rest

/-- Scans a trace from lock state `s`: `true` iff at every `handle_batch`
invocation the queue lock is held and the metrics lock is not. -/
def queueHeldAtBatchCalls : LockState → List MgrAction → Bool
  | _, [] => true
  | s, a :: rest =>
    (match a with
     | .invokeHandleBatch _ _ => s.queue_held && !s.metrics_held
     | _ => true) && queueHeldAtBatchCalls (stepLock s a) rest

/-- Recognizes the entry marker of a `_process_batch` call. -/
def isProcessBatchCall : MgrAction → Bool
  | .processBatchCall _ => true
  | _ => false

/-! ## Graph-sync handler — `GraphSyncHandler` in `src/cdc/handlers.py`

The handler translates change events into graph-store calls. Its effect is
embedded as the list of operations it issues against the `graph_db`
connector, in order; a separate interpreter (`applyOp`) gives those
operations the store semantics described for the external graph collaborator
(node create, primary-key-scoped update/delete, label-wide detach-delete). -/

/-- A node-type property from `src/schema_mapper/graph_schema.py`; the
handler only reads `name` (type/required/indexed/unique/description are
never consulted by it). -/
structure GraphProperty where
  name : String

/-- `NodeType` from `src/schema_mapper/graph_schema.py` (the fields the
handler reads). -/
structure NodeType where
  label : String
  properties : List GraphProperty := []
  source_table : Option String := none
  primary_key : Option String := none

/-- `GraphSchema` (its `relationship_types`/`metadata` are unused here). -/
structure GraphSchema where
  node_types : List NodeType := []

/-- Generic Python-dict assignment on an association list: update in place
if the key exists, else append. -/
def assocInsert {α β : Type} [BEq α] : List (α × β) → α → β → List (α × β)
  | [], k, v => [(k, v)]
  | (k', v') :: rest, k, v =>
      if k' == k then (k', v) :: rest else (k', v') :: assocInsert rest k v

/-- The `__init__` loop building `table_to_node_type`: every node type with
a truthy `source_table` (non-`None`, non-empty) is keyed by it. -/
def build_table_map : List NodeType → List (String × NodeType) → List (String × NodeType)
  | [], acc => acc
  | nt :: rest, acc =>
    match nt.source_table with
    | some s => if s = "" then build_table_map rest acc
                else build_table_map rest (assocInsert acc s nt)
    | none => build_table_map rest acc

/-- A constructed `GraphSyncHandler`: only `table_to_node_type` matters to
its logic (`graph_db`/`graph_schema` are held references; `domain_prefix` is
stored but never used). -/
structure GraphSyncHandler where
  table_to_node_type : List (String × NodeType)

/-- `GraphSyncHandler.__init__` from a schema. -/
def GraphSyncHandler.ofSchema (gs : GraphSchema) : GraphSyncHandler :=
  ⟨build_table_map gs.node_types []⟩

/-- `self.table_to_node_type.get(event.table)`: only a string table value
can equal one of the string keys. -/
def GraphSyncHandler.lookupTable (h : GraphSyncHandler) (table : JsonVal) :
    Option NodeType :=
  match table with
  | .str s => h.table_to_node_type.lookup s
  | _ => none

/-- `can_handle`: `event.table in self.table_to_node_type`. -/
def GraphSyncHandler.canHandle (h : GraphSyncHandler) (e : ChangeEvent) : Bool :=
  (h.lookupTable e.table).isSome

/-- An operation the handler issues against the graph store: node creation
(single and batch), the `MATCH … SET n += …` update, the `MATCH … DETACH
DELETE` by primary key, and the label-wide `MATCH (n:label) DETACH DELETE n`
issued for truncate. -/
inductive GraphOp where
  | createNode (label : String) (properties : Jdict)
  | batchCreateNodes (label : String) (nodes : List Jdict)
  | updateByPk (label : String) (pk : String) (pk_value : JsonVal) (properties : Jdict)
  | deleteByPk (label : String) (pk : String) (pk_value : JsonVal)
  | truncateLabel (label : String)

/-- The loop of `_prepare_properties`: keep, per declared property of the
node type, the value present in the data when it is not `None`. -/
def prepare_loop : List GraphProperty → Jdict → Jdict → Jdict
  | [], _, acc => acc
  | p :: rest, d, acc =>
    match Jdict.lookup d (.str p.name) with
    | some v =>
        if v == .null then prepare_loop rest d acc
        else prepare_loop rest d (acc.insert (.str p.name) v)
    | none => prepare_loop rest d acc

/-- `_prepare_properties`. -/
def prepare_properties (data : Option Jdict) (nt : NodeType) : Jdict :=
  match data with
  | none => []
  | some d => if d.isEmpty then [] else prepare_loop nt.properties d []

/-- Python truthiness of an `Optional[str]`. -/
def optStrTruthy : Option String → Bool
  | some s => s ≠ ""
  | none => false

/-- `_handle_insert`. -/
def GraphSyncHandler.handleInsert (h : GraphSyncHandler) (e : ChangeEvent) :
    List GraphOp :=
  match h.lookupTable e.table with
  | none => []
  | some nt => [.createNode nt.label (prepare_properties e.new_data nt)]

/-- `_handle_update`: silently no-ops unless the event carries a truthy
primary-key dict, the node type a truthy primary-key name, and the looked-up
key value is itself truthy. -/
def GraphSyncHandler.handleUpdate (h : GraphSyncHandler) (e : ChangeEvent) :
    List GraphOp :=
  match h.lookupTable e.table with
  | none => []
  | some nt =>
    let properties := prepare_properties e.new_data nt
    match nt.primary_key with
    | some pk =>
      if pk ≠ "" && optDictTruthy e.primary_key then
        let pk_value := (Jdict.lookup (e.primary_key.getD []) (.str pk)).getD .null
        if pk_value.truthy then [.updateByPk nt.label pk pk_value properties]
        else []
      else []
    | none => []

/-- `_handle_delete`. -/
def GraphSyncHandler.handleDelete (h : GraphSyncHandler) (e : ChangeEvent) :
    List GraphOp :=
  match h.lookupTable e.table with
  | none => []
  | some nt =>
    match nt.primary_key with
    | some pk =>
      if pk ≠ "" && optDictTruthy e.primary_key then
        let pk_value := (Jdict.lookup (e.primary_key.getD []) (.str pk)).getD .null
        if pk_value.truthy then [.deleteByPk nt.label pk pk_value]
        else []
      else []
    | none => []

/-- `_handle_truncate`: one label-wide detach-delete for the mapped type. -/
def GraphSyncHandler.handleTruncate (h : GraphSyncHandler) (e : ChangeEvent) :
    List GraphOp :=
  match h.lookupTable e.table with
  | none => []
  | some nt => [.truncateLabel nt.label]

/-- `handle_change`: dispatch on the operation (DDL logs a warning and
issues nothing; an exception would be re-raised, but no dispatch target
raises in this embedding). -/
def GraphSyncHandler.handleChange (h : GraphSyncHandler) (e : ChangeEvent) :
    List GraphOp :=
  match e.operation with
  | .insert => h.handleInsert e
  | .update => h.handleUpdate e
  | .delete => h.handleDelete e
  | .truncate => h.handleTruncate e
  | .ddl => []

/-- The `by_table` grouping of `_batch_insert`: groups keyed by `event.table`
in first-occurrence order, each group in arrival order. -/
def appendGroup : List (JsonVal × List ChangeEvent) → JsonVal → ChangeEvent →
    List (JsonVal × List ChangeEvent)
  | [], t, e => [(t, [e])]
  | (t', es) :: r, t, e =>
      if t' == t then (t', es ++ [e]) :: r else (t', es) :: appendGroup r t e

/-- Builds `by_table` over the insert events. -/
def group_by_table : List ChangeEvent → List (JsonVal × List ChangeEvent) →
    List (JsonVal × List ChangeEvent)
  | [], acc => acc
  | e :: rest, acc => group_by_table rest (appendGroup acc e.table e)

/-- The per-table loop of `_batch_insert`: one bulk create per mapped table. -/
def batch_insert_loop (h : GraphSyncHandler) :
    List (JsonVal × List ChangeEvent) → List GraphOp
  | [] => []
  | (t, tes) :: rest =>
    match h.lookupTable t with
    | none => batch_insert_loop h rest
    | some nt =>
      let nodes := tes.map (fun e => prepare_properties e.new_data nt)
      (if nodes.isEmpty then [] else [.batchCreateNodes nt.label nodes]) ++
        batch_insert_loop h rest

/-- `_batch_insert`. -/
def GraphSyncHandler.batchInsert (h : GraphSyncHandler)
    (events : List ChangeEvent) : List GraphOp :=
  batch_insert_loop h (group_by_table events [])

/-- `_batch_update`: degrades to one `_handle_update` per event. -/
def GraphSyncHandler.batchUpdate (h : GraphSyncHandler)
    (events : List ChangeEvent) : List GraphOp :=
  (events.map h.handleUpdate).flatten

/-- `_batch_delete`: degrades to one `_handle_delete` per event. -/
def GraphSyncHandler.batchDelete (h : GraphSyncHandler)
    (events : List ChangeEvent) : List GraphOp :=
  (events.map h.handleDelete).flatten

/-- `handle_batch`: partition the batch into inserts/updates/deletes (any
other operation, truncate included, falls through none of the three `elif`
arms) and issue each non-empty group. -/
def GraphSyncHandler.handleBatch (h : GraphSyncHandler)
    (events : List ChangeEvent) : List GraphOp :=
  let inserts := events.filter (fun e => e.operation == .insert)
  let updates := events.filter (fun e => e.operation == .update)
  let deletes := events.filter (fun e => e.operation == .delete)
  (if inserts.isEmpty then [] else h.batchInsert inserts) ++
  (if updates.isEmpty then [] else h.batchUpdate updates) ++
  (if deletes.isEmpty then [] else h.batchDelete deletes)

/-! ### Graph-store semantics

Interpreter for the issued operations, per the external graph collaborator
contract (spec section 6): node create appends; the primary-key-scoped
update merges properties into every matching node; the primary-key-scoped
delete and the label-wide truncate remove matching nodes with their incident
relationships. -/

/-- A stored graph node. -/
structure GraphNode where
  label : String
  properties : Jdict

/-- The graph store's node set (relationships are dropped with their
endpoints by `DETACH DELETE`, so nodes suffice for the claims here). -/
abbrev Graph := List GraphNode

/-- `SET n += $properties`: upsert every given property. -/
def mergeProps (target props : Jdict) : Jdict :=
  props.foldl (fun t kv => t.insert kv.1 kv.2) target

/-- Does a node match `{pk: $pk_value}`? -/
def pkMatches (n : GraphNode) (pk : String) (v : JsonVal) : Bool :=
  match Jdict.lookup n.properties (.str pk) with
  | some w => w == v
  | none => false

/-- Apply one issued operation to the store. -/
def applyOp (g : Graph) : GraphOp → Graph
  | .createNode l p => g ++ [⟨l, p⟩]
  | .batchCreateNodes l ps => g ++ ps.map (fun p => ⟨l, p⟩)
  | .updateByPk l pk v props =>
      g.map (fun n =>
        if n.label == l && pkMatches n pk v then ⟨n.label, mergeProps n.properties props⟩
        else n)
  | .deleteByPk l pk v => g.filter (fun n => !(n.label == l && pkMatches n pk v))
  | .truncateLabel l => g.filter (fun n => n.label ≠ l)

/-- Apply a list of operations in order. -/
def applyOps (g : Graph) (ops : List GraphOp) : Graph :=
  ops.foldl applyOp g

/-! ## Concrete instances

Closed listener/manager/handler configurations used to instantiate the
theorems below on concrete inputs. -/

/-- A listener state with the default slot/publication names. -/
def exListenerState : PGListenerState :=
  ⟨"graph_sync_slot", "graph_sync_pub", none, false⟩

/-- A timestamp parser that always fails (forcing the wall-clock fallback). -/
def noTs : JsonVal → Option Nat := fun _ => none

/-- The example insert change record for table `patients`. -/
def exampleChange : Jdict :=
  [(.str "action", .str "I"), (.str "schema", .str "public"),
   (.str "table", .str "patients"),
   (.str "columns", .arr [
      .obj [(.str "name", .str "id"), (.str "value", .num 7)],
      .obj [(.str "name", .str "name"), (.str "value", .str "Amy")]])]

/-- The example insert payload for table `patients` (flat form). -/
def examplePayload : JsonVal := .obj exampleChange

/-- The event the example payload parses to (receipt clock `0`). -/
def exampleEvent : ChangeEvent :=
  { operation := .insert
    table := .str "patients"
    schema := .str "public"
    timestamp := 0
    database_type := "postgres"
    old_data := none
    new_data := some [(.str "id", .num 7), (.str "name", .str "Amy")]
    primary_key := some [(.str "id", .num 7)]
    lsn := .null
    metadata := [("publication", .str "graph_sync_pub"),
                 ("slot", .str "graph_sync_slot"),
                 ("plugin", .str "wal2json"), ("nextlsn", .null)] }

/-- An insert event on table `patients`. -/
def exEvent : ChangeEvent :=
  { operation := .insert, table := .str "patients", schema := .str "public",
    timestamp := 0, database_type := "postgres",
    new_data := some [(.str "id", .num 7)] }

/-- A handler accepting every event, whose calls succeed. -/
def exHandlerOk : Handler :=
  ⟨"GraphSyncHandler", fun _ => true, fun _ => .ok (), fun _ => .ok ()⟩

/-- A handler accepting every event, whose calls raise. -/
def exHandlerFail : Handler :=
  ⟨"EmbeddingSyncHandler", fun _ => true, fun _ => .error "boom",
   fun _ => .error "boom"⟩

/-- A batching manager with `batch_size = 1` and one succeeding handler. -/
def exMgrFlush : MgrState :=
  { handlers := [exHandlerOk], batch_size := 1, enable_batching := true }

/-- A started batching manager with one queued event. -/
def exMgrQueued : MgrState :=
  { handlers := [exHandlerOk], batch_size := 5, enable_batching := true,
    event_queue := [exEvent], batch_thread := true }

/-- A manager with a failing handler registered before a succeeding one. -/
def exMgrTwo : MgrState :=
  { handlers := [exHandlerFail, exHandlerOk], batch_size := 1,
    enable_batching := true }

/-- A listener whose `setup()` raises. -/
def exListenerFail : Listener := ⟨.error "wal_level must be logical", .ok ()⟩

/-- The `patients` node type mapped to label `Patient`. -/
def patientsNT : NodeType :=
  { label := "Patient", properties := [⟨"id"⟩, ⟨"name"⟩],
    source_table := some "patients", primary_key := some "id" }

/-- A graph-sync handler over the one-table schema. -/
def exGraphHandler : GraphSyncHandler :=
  GraphSyncHandler.ofSchema { node_types := [patientsNT] }

/-- A truncate event on `patients`. -/
def exTruncEvent : ChangeEvent :=
  { operation := .truncate, table := .str "patients", schema := .str "public",
    timestamp := 0, database_type := "postgres" }

/-- A store holding one `Patient` node. -/
def exGraph : Graph := [⟨"Patient", [(.str "id", .num 1)]⟩]

/-! ## Theorems -/

/-- A change record without a `table` key parses to no event, whatever its
other fields hold. -/
theorem parse_change_record_no_table (st : PGListenerState) (data change : Jdict)
    (parseTs : JsonVal → Option Nat) (now : Nat)
    (h : Jdict.lookup change (.str "table") = none) :
    parse_change_record st data change parseTs now = none := by
  unfold parse_change_record
  simp only [h, Option.getD_none]
  repeat' split
  all_goals simp_all [JsonVal.truthy]

/-- C3: For every replication message processed by `_process_message`, the
listener's `current_position` is set from the message's raw offset before the
payload is parsed, so after processing any message — including one whose
payload fails to parse and yields no event — `current_position` equals that
message's offset. -/
theorem position_tracks_message_offset (st : PGListenerState) (msg : ReplMessage)
    (callback : ChangeEvent → Except String Unit)
    (parseTs : JsonVal → Option Nat) (now : Nat) :
    (process_message st msg callback parseTs now).1.current_position
      = some (Nat.repr msg.data_start) := rfl

/-- C9: A payload that is not valid JSON parses to no event, and a payload
whose change record lacks a table name parses to no event — in both the flat
and the wrapped envelope form — rather than raising. -/
theorem malformed_payload_dropped (st : PGListenerState)
    (parseTs : JsonVal → Option Nat) (now : Nat) :
    (parse_wal2json st none parseTs now = none) ∧
    (∀ d : Jdict, Jdict.lookup d (.str "change") = none →
       Jdict.lookup d (.str "table") = none →
       parse_wal2json st (some (.obj d)) parseTs now = none) ∧
    (∀ (d c : Jdict) (rest : List JsonVal),
       Jdict.lookup d (.str "change") = some (.arr (.obj c :: rest)) →
       Jdict.lookup c (.str "table") = none →
       parse_wal2json st (some (.obj d)) parseTs now = none) := by
  refine ⟨rfl, ?_, ?_⟩
  · intro d hc ht
    simp only [parse_wal2json, hc]
    exact parse_change_record_no_table st d d parseTs now ht
  · intro d c rest hc ht
    simp only [parse_wal2json, hc, JsonVal.truthy, List.isEmpty_cons,
      Bool.not_false, if_true]
    exact parse_change_record_no_table st d c parseTs now ht

/-- C9 witness: concrete malformed payloads are dropped. -/
theorem malformed_payload_dropped_witness :
    parse_wal2json exListenerState none noTs 0 = none ∧
    parse_wal2json exListenerState (some (.obj [(.str "action", .str "I")])) noTs 0 = none ∧
    parse_wal2json exListenerState
      (some (.obj [(.str "change", .arr [.obj [(.str "action", .str "I")]])])) noTs 0 = none :=
  ⟨(malformed_payload_dropped exListenerState noTs 0).1,
   (malformed_payload_dropped exListenerState noTs 0).2.1 _ rfl rfl,
   (malformed_payload_dropped exListenerState noTs 0).2.2 _ _ _ rfl rfl⟩

/-- Appending a fresh binding makes it visible to lookup. -/
theorem lookup_append_single {β : Type} (xs : List (String × β)) (name : String)
    (v : β) (h : xs.lookup name = none) :
    (xs ++ [(name, v)]).lookup name = some v := by
  induction xs with
  | nil => simp [List.lookup]
  | cons p rest ih =>
    rw [List.cons_append]
    rw [List.lookup] at h ⊢
    cases hx : (name == p.1) with
    | true => simp [hx] at h
    | false =>
      simp only [hx] at h ⊢
      exact ih h

/-- C10: registering a fresh listener with `auto_setup` whose `setup()`
raises propagates the exception, but the listener stays in the registry, and
a later registration under the same name fails as a duplicate and leaves the
state unchanged. -/
theorem failed_setup_not_rolled_back (st : MgrState) (name : String)
    (l : Listener) (e : String)
    (hfresh : st.listeners.lookup name = none)
    (hsetup : l.setup = .error e) :
    (register_listener st name l true).2 = .setupFailed e ∧
    (register_listener st name l true).1.listeners.lookup name = some l ∧
    (∀ (l2 : Listener) (b : Bool),
      register_listener (register_listener st name l true).1 name l2 b
        = ((register_listener st name l true).1, .dupNameError name)) := by
  have hlook : (st.listeners ++ [(name, l)]).lookup name = some l :=
    lookup_append_single st.listeners name l hfresh
  refine ⟨?_, ?_, ?_⟩
  · simp [register_listener, hfresh, hsetup]
  · simp [register_listener, hfresh, hsetup, hlook]
  · intro l2 b
    simp [register_listener, hfresh, hsetup, hlook]

/-- C10 witness: a concrete failed registration is observable in the
registry and blocks re-registration. -/
theorem failed_setup_not_rolled_back_witness :
    (register_listener {} "pg" exListenerFail true).2
        = .setupFailed "wal_level must be logical" ∧
    (register_listener {} "pg" exListenerFail true).1.listeners.lookup "pg"
        = some exListenerFail ∧
    register_listener (register_listener {} "pg" exListenerFail true).1 "pg"
        exListenerFail false
      = ((register_listener {} "pg" exListenerFail true).1, .dupNameError "pg") :=
  ⟨(failed_setup_not_rolled_back {} "pg" exListenerFail _ rfl rfl).1,
   (failed_setup_not_rolled_back {} "pg" exListenerFail _ rfl rfl).2.1,
   (failed_setup_not_rolled_back {} "pg" exListenerFail _ rfl rfl).2.2 exListenerFail false⟩

/-- When both data-dict builds go through, `parse_change_data` yields an
event carrying the given operation/table/schema, the built `columns` and
`identity` dicts, and the primary key derived by the old-data/new-data/absent
rule. -/
theorem parse_change_data_fields (st : PGListenerState) (data change : Jdict)
    (op : ChangeOperation) (schemaVal tableVal : JsonVal)
    (parseTs : JsonVal → Option Nat) (now : Nat)
    (hcols : (optDataDict change "columns").isSome)
    (hident : (optDataDict change "identity").isSome) :
    ∃ ev, parse_change_data st data change op schemaVal tableVal parseTs now = some ev ∧
      ev.operation = op ∧ ev.table = tableVal ∧ ev.schema = schemaVal ∧
      optDataDict change "columns" = some ev.new_data ∧
      optDataDict change "identity" = some ev.old_data ∧
      ev.primary_key = (if optDictTruthy ev.old_data then ev.old_data
        else if optDictTruthy ev.new_data then extract_pk_from_data (ev.new_data.getD [])
        else none) := by
  rcases Option.isSome_iff_exists.mp hcols with ⟨nd, hnd⟩
  rcases Option.isSome_iff_exists.mp hident with ⟨od, hod⟩
  unfold parse_change_data
  rw [hnd, hod]
  exact ⟨_, rfl, rfl, rfl, rfl, rfl, rfl, rfl⟩

/-- Dispatch lemma: a truthy action value that is neither `B` nor `C` and
maps to an operation, together with a truthy table value, sends
`parse_change_record` to `parse_change_data`. -/
theorem parse_change_record_eq (st : PGListenerState) (data change : Jdict)
    (parseTs : JsonVal → Option Nat) (now : Nat) (op : ChangeOperation)
    (av : JsonVal) (tbl : String)
    (ha : Jdict.lookup change (.str "action") = some av)
    (hav : av.truthy = true)
    (hbc : (av == .str "B" || av == .str "C") = false)
    (hmap : action_map av = some op)
    (htbl : Jdict.lookup change (.str "table") = some (.str tbl))
    (htblne : tbl ≠ "") :
    parse_change_record st data change parseTs now
      = parse_change_data st data change op
          ((Jdict.lookup change (.str "schema")).getD (.str "public"))
          (.str tbl) parseTs now := by
  unfold parse_change_record
  rw [ha, htbl]
  simp only [Option.getD_some, hav, reduceIte, hbc, Bool.false_eq_true,
    if_false, hmap]
  simp [JsonVal.truthy, htblne]

/-- Dispatch lemma: a truthy action value of `B` or `C` makes
`parse_change_record` return no event. -/
theorem parse_change_record_bc (st : PGListenerState) (data change : Jdict)
    (parseTs : JsonVal → Option Nat) (now : Nat) (av : JsonVal)
    (ha : Jdict.lookup change (.str "action") = some av)
    (hav : av.truthy = true)
    (hbc : (av == .str "B" || av == .str "C") = true) :
    parse_change_record st data change parseTs now = none := by
  unfold parse_change_record
  rw [ha]
  simp [hav, hbc]

/-- C7: For every valid change payload whose action code is I, U, D, or T,
the parser returns a ChangeEvent whose operation is respectively Insert,
Update, Delete, or Truncate and whose table and schema equal the payload's
table and schema fields; action codes B and C yield no event. Validity:
the record carries a non-empty string table, a string schema, and
well-formed `columns`/`identity` arrays when present. -/
theorem wal2json_action_mapping (st : PGListenerState) (data change : Jdict)
    (parseTs : JsonVal → Option Nat) (now : Nat) (tbl sch : String)
    (htbl : Jdict.lookup change (.str "table") = some (.str tbl))
    (htblne : tbl ≠ "")
    (hsch : Jdict.lookup change (.str "schema") = some (.str sch))
    (hcols : (optDataDict change "columns").isSome = true)
    (hident : (optDataDict change "identity").isSome = true) :
    (Jdict.lookup change (.str "action") = some (.str "I") →
      ∃ ev, parse_change_record st data change parseTs now = some ev ∧
        ev.operation = .insert ∧ ev.table = .str tbl ∧ ev.schema = .str sch) ∧
    (Jdict.lookup change (.str "action") = some (.str "U") →
      ∃ ev, parse_change_record st data change parseTs now = some ev ∧
        ev.operation = .update ∧ ev.table = .str tbl ∧ ev.schema = .str sch) ∧
    (Jdict.lookup change (.str "action") = some (.str "D") →
      ∃ ev, parse_change_record st data change parseTs now = some ev ∧
        ev.operation = .delete ∧ ev.table = .str tbl ∧ ev.schema = .str sch) ∧
    (Jdict.lookup change (.str "action") = some (.str "T") →
      ∃ ev, parse_change_record st data change parseTs now = some ev ∧
        ev.operation = .truncate ∧ ev.table = .str tbl ∧ ev.schema = .str sch) ∧
    (Jdict.lookup change (.str "action") = some (.str "B") →
      parse_change_record st data change parseTs now = none) ∧
    (Jdict.lookup change (.str "action") = some (.str "C") →
      parse_change_record st data change parseTs now = none) := by
  have step : ∀ (av : JsonVal) (op : ChangeOperation),
      Jdict.lookup change (.str "action") = some av → av.truthy = true →
      (av == .str "B" || av == .str "C") = false → action_map av = some op →
      ∃ ev, parse_change_record st data change parseTs now = some ev ∧
        ev.operation = op ∧ ev.table = .str tbl ∧ ev.schema = .str sch := by
    intro av op ha hav hbc hmap
    have h1 := parse_change_record_eq st data change parseTs now op av tbl
      ha hav hbc hmap htbl htblne
    rw [hsch, Option.getD_some] at h1
    obtain ⟨ev, hev, hop, htb, hsc, _, _, _⟩ :=
      parse_change_data_fields st data change op (.str sch) (.str tbl)
        parseTs now hcols hident
    exact ⟨ev, h1.trans hev, hop, htb, hsc⟩
  refine ⟨fun ha => step _ _ ha (by decide) (by decide) rfl,
          fun ha => step _ _ ha (by decide) (by decide) rfl,
          fun ha => step _ _ ha (by decide) (by decide) rfl,
          fun ha => step _ _ ha (by decide) (by decide) rfl,
          fun ha => parse_change_record_bc st data change parseTs now _ ha
            (by decide) (by decide),
          fun ha => parse_change_record_bc st data change parseTs now _ ha
            (by decide) (by decide)⟩

/-- C7 witness: the example `patients` insert record is mapped to an Insert
event with the payload's table and schema. -/
theorem wal2json_action_mapping_witness :
    ∃ ev, parse_change_record exListenerState exampleChange exampleChange noTs 0
        = some ev ∧
      ev.operation = .insert ∧ ev.table = .str "patients" ∧
      ev.schema = .str "public" :=
  (wal2json_action_mapping exListenerState exampleChange exampleChange noTs 0
    "patients" "public" rfl (by decide) rfl rfl rfl).1 rfl

/-- Inversion: a successful `parse_change_data` pins the event's
`new_data`/`old_data` to the built `columns`/`identity` dicts and its
`primary_key` to the old-data / `id`-from-new-data / absent rule. -/
theorem parse_change_data_inv (st : PGListenerState) (data change : Jdict)
    (op : ChangeOperation) (schemaVal tableVal : JsonVal)
    (parseTs : JsonVal → Option Nat) (now : Nat) (ev : ChangeEvent)
    (h : parse_change_data st data change op schemaVal tableVal parseTs now
          = some ev) :
    optDataDict change "columns" = some ev.new_data ∧
    optDataDict change "identity" = some ev.old_data ∧
    ev.primary_key = (if optDictTruthy ev.old_data then ev.old_data
      else if optDictTruthy ev.new_data then extract_pk_from_data (ev.new_data.getD [])
      else none) := by
  unfold parse_change_data at h
  split at h
  case _ nd od hnd hod =>
    cases h
    exact ⟨hnd, hod, rfl⟩
  case _ => exact absurd h (by simp)

/-- Inversion: a successful `parse_change_record` went through
`parse_change_data`. -/
theorem parse_change_record_some (st : PGListenerState) (data change : Jdict)
    (parseTs : JsonVal → Option Nat) (now : Nat) (ev : ChangeEvent)
    (h : parse_change_record st data change parseTs now = some ev) :
    ∃ op schemaVal tableVal,
      parse_change_data st data change op schemaVal tableVal parseTs now
        = some ev := by
  unfold parse_change_record at h
  simp only [] at h
  split at h
  all_goals
    split at h
    · exact absurd h (by simp)
    · split at h
      · exact absurd h (by simp)
      · split at h
        · exact absurd h (by simp)
        · exact ⟨_, _, _, h⟩

/-- C8: the primary key of every parsed change event is the built identity
dict when the payload carries identity columns (`old_data` truthy), else the
`id`-column extraction from `new_data` when that is truthy, else absent; and
the example `patients` insert payload parses to exactly the example event
(operation Insert, table `patients`, schema `public`,
`new_data = {id: 7, name: Amy}`, `primary_key = {id: 7}`). -/
theorem primary_key_rule :
    (∀ (st : PGListenerState) (data change : Jdict)
       (parseTs : JsonVal → Option Nat) (now : Nat) (ev : ChangeEvent),
       parse_change_record st data change parseTs now = some ev →
       optDataDict change "columns" = some ev.new_data ∧
       optDataDict change "identity" = some ev.old_data ∧
       ev.primary_key = (if optDictTruthy ev.old_data then ev.old_data
         else if optDictTruthy ev.new_data then
           extract_pk_from_data (ev.new_data.getD [])
         else none)) ∧
    parse_wal2json exListenerState (some examplePayload) noTs 0
      = some exampleEvent := by
  refine ⟨?_, rfl⟩
  intro st data change parseTs now ev h
  obtain ⟨op, schemaVal, tableVal, hd⟩ :=
    parse_change_record_some st data change parseTs now ev h
  exact parse_change_data_inv st data change op schemaVal tableVal
    parseTs now ev hd

/-- C8 witness: the rule applied to the example record. -/
theorem primary_key_rule_witness :
    optDataDict exampleChange "columns" = some exampleEvent.new_data ∧
    optDataDict exampleChange "identity" = some exampleEvent.old_data ∧
    exampleEvent.primary_key
      = (if optDictTruthy exampleEvent.old_data then exampleEvent.old_data
         else if optDictTruthy exampleEvent.new_data then
           extract_pk_from_data (exampleEvent.new_data.getD [])
         else none) :=
  primary_key_rule.1 exListenerState exampleChange exampleChange noTs 0
    exampleEvent rfl

/-- Dropping truncate events from a batch leaves the insert/update/delete
partitions of `handle_batch` unchanged. -/
theorem filter_op_after_drop_truncate (events : List ChangeEvent)
    (op : ChangeOperation) (hop : (op == ChangeOperation.truncate) = false) :
    (events.filter (fun x => !(x.operation == ChangeOperation.truncate))).filter
        (fun x => x.operation == op)
      = events.filter (fun x => x.operation == op) := by
  induction events with
  | nil => rfl
  | cons e rest ih =>
    by_cases he : e.operation = ChangeOperation.truncate
    · have h2 : ChangeOperation.truncate ≠ op := fun hh => by simp [← hh] at hop
      simp [List.filter_cons, he, h2, ih]
    · simp [List.filter_cons, he, ih]

/-- C2 (amended): a Truncate event whose table is mapped removes, via the
single-event entry point `handle_change`, every node of the mapped entity
type from the graph store; the batch entry point `handle_batch`, however,
ignores Truncate events entirely (its partition keeps only
insert/update/delete events), so a truncate delivered in a batch issues no
graph operation. -/
theorem truncate_removes_mapped_nodes (h : GraphSyncHandler) (e : ChangeEvent)
    (nt : NodeType) (g : Graph)
    (hop : e.operation = .truncate)
    (hmap : h.lookupTable e.table = some nt) :
    (h.handleChange e = [.truncateLabel nt.label]) ∧
    (∀ n ∈ applyOps g (h.handleChange e), n.label ≠ nt.label) ∧
    (∀ events : List ChangeEvent,
      h.handleBatch events
        = h.handleBatch
            (events.filter (fun x => !(x.operation == ChangeOperation.truncate)))) := by
  have h1 : h.handleChange e = [.truncateLabel nt.label] := by
    simp [GraphSyncHandler.handleChange, hop, GraphSyncHandler.handleTruncate, hmap]
  refine ⟨h1, ?_, ?_⟩
  · intro n hn
    rw [h1] at hn
    simp only [applyOps, applyOp, List.foldl_cons, List.foldl_nil] at hn
    simp only [List.mem_filter, decide_eq_true_eq] at hn
    exact hn.2
  · intro events
    unfold GraphSyncHandler.handleBatch
    rw [filter_op_after_drop_truncate events .insert (by decide),
        filter_op_after_drop_truncate events .update (by decide),
        filter_op_after_drop_truncate events .delete (by decide)]

/-- C2 witness: truncating `patients` through `handle_change` empties the
store of `Patient` nodes. -/
theorem truncate_removes_mapped_nodes_witness :
    applyOps exGraph (exGraphHandler.handleChange exTruncEvent) = [] ∧
    (∀ n ∈ applyOps exGraph (exGraphHandler.handleChange exTruncEvent),
       n.label ≠ patientsNT.label) :=
  ⟨rfl, (truncate_removes_mapped_nodes exGraphHandler exTruncEvent patientsNT
    exGraph rfl rfl).2.1⟩

/-- C2 counterexample: the same mapped Truncate event processed through the
batch entry point `handle_batch` issues no operation, and the `Patient`
node survives — refuting the claim for the batch path. -/
theorem truncate_batch_counterexample :
    exGraphHandler.lookupTable exTruncEvent.table = some patientsNT ∧
    patientsNT.label = "Patient" ∧
    exGraphHandler.handleBatch [exTruncEvent] = [] ∧
    applyOps exGraph (exGraphHandler.handleBatch [exTruncEvent]) = exGraph ∧
    (GraphNode.mk "Patient" [(.str "id", .num 1)])
      ∈ applyOps exGraph (exGraphHandler.handleBatch [exTruncEvent]) :=
  ⟨rfl, rfl, rfl, rfl, List.Mem.head _⟩

/-- The handler loop of `_process_batch` never re-enters `_process_batch`. -/
theorem process_batch_loop_no_pbc (now : Nat) (events : List ChangeEvent)
    (hs : List Handler) (m : Metrics) :
    (process_batch_loop now events hs m).2.filter isProcessBatchCall = [] := by
  induction hs generalizing m with
  | nil => rfl
  | cons h rest ih =>
    simp only [process_batch_loop]
    split
    · exact ih m
    · split <;> simp [List.filter_cons, isProcessBatchCall, ih]

/-- `_process_batch` leaves the event queue untouched. -/
theorem process_batch_queue (now : Nat) (st : MgrState)
    (events : List ChangeEvent) :
    (process_batch now st events).1.event_queue = st.event_queue := by
  unfold process_batch
  split <;> rfl

/-- `_process_batch` on a non-empty batch enters exactly once with exactly
that batch. -/
theorem process_batch_trace (now : Nat) (st : MgrState)
    (events : List ChangeEvent) (hne : events.isEmpty = false) :
    (process_batch now st events).2.filter isProcessBatchCall
      = [.processBatchCall events] := by
  unfold process_batch
  simp [hne, List.filter_cons, isProcessBatchCall, process_batch_loop_no_pbc]

/-- C5: delivering the event that fills the queue to `batch_size`
synchronously triggers exactly one flush, of exactly the queued events
followed by the new one (arrival order), and leaves the queue empty. -/
theorem size_triggered_flush (st : MgrState) (event : ChangeEvent) (now : Nat)
    (hb : st.enable_batching = true)
    (hsize : st.event_queue.length + 1 = st.batch_size) :
    (handle_change now st event).2.filter isProcessBatchCall
        = [.processBatchCall (st.event_queue ++ [event])] ∧
    (handle_change now st event).1.event_queue = [] := by
  have hle : st.batch_size ≤ (st.event_queue ++ [event]).length := by
    simp [List.length_append, ← hsize]
  have hne : (st.event_queue ++ [event]).isEmpty = false := by
    cases st.event_queue <;> rfl
  unfold handle_change
  constructor
  · simp only [hb, if_true, hle, List.filter_append, List.filter_cons,
      isProcessBatchCall, reduceIte]
    simp [process_batch_trace _ _ _ hne, isProcessBatchCall]
  · simp only [hb, if_true, hle, reduceIte]
    simp [process_batch_queue]

/-- C5 witness: with `batch_size = 1` and an empty queue, one event flushes
immediately and alone. -/
theorem size_triggered_flush_witness :
    (handle_change 0 exMgrFlush exEvent).2.filter isProcessBatchCall
        = [.processBatchCall [exEvent]] ∧
    (handle_change 0 exMgrFlush exEvent).1.event_queue = [] :=
  size_triggered_flush exMgrFlush exEvent 0 rfl rfl

/-- C6: `stop_all` on a started batching manager with `0 < M < batch_size`
queued events performs exactly one final flush of exactly those events, and
the following status snapshot reports a queue depth of zero. -/
theorem final_flush_on_stop (st : MgrState) (now : Nat) (M : Nat)
    (hthread : st.batch_thread = true)
    (hlen : st.event_queue.length = M) (hpos : 0 < M)
    (_hlt : M < st.batch_size) :
    (stop_all now st).2.filter isProcessBatchCall
        = [.processBatchCall st.event_queue] ∧
    (get_status (stop_all now st).1).batching.queue_size = 0 := by
  have hne : st.event_queue.isEmpty = false := by
    cases hq : st.event_queue with
    | nil => rw [hq] at hlen; simp at hlen; omega
    | cons a l => rfl
  unfold stop_all
  simp only [hthread, if_true, hne, Bool.false_eq_true, if_false]
  exact ⟨process_batch_trace now st st.event_queue hne, by simp [get_status]⟩

/-- C6 witness: stopping the queued manager flushes its one event and the
status then shows an empty queue. -/
theorem final_flush_on_stop_witness :
    (stop_all 0 exMgrQueued).2.filter isProcessBatchCall
        = [.processBatchCall [exEvent]] ∧
    (get_status (stop_all 0 exMgrQueued).1).batching.queue_size = 0 :=
  final_flush_on_stop exMgrQueued 0 1 rfl rfl (by decide) (by decide)

/-- Lock scanning distributes over trace concatenation. -/
theorem queueHeld_append (s : LockState) (t1 t2 : List MgrAction) :
    queueHeldAtBatchCalls s (t1 ++ t2)
      = (queueHeldAtBatchCalls s t1
          && queueHeldAtBatchCalls (t1.foldl stepLock s) t2) := by
  induction t1 generalizing s with
  | nil => simp [queueHeldAtBatchCalls]
  | cons a t ih =>
    simp [queueHeldAtBatchCalls, List.foldl_cons, ih, Bool.and_assoc]

/-- Inside the handler loop, entered with the queue lock held and the
metrics lock free, every `handle_batch` invocation sees exactly that lock
state. -/
theorem process_batch_loop_locks (now : Nat) (events : List ChangeEvent)
    (hs : List Handler) (m : Metrics) :
    queueHeldAtBatchCalls ⟨true, false⟩ ((process_batch_loop now events hs m).2)
      = true := by
  induction hs generalizing m with
  | nil => rfl
  | cons h rest ih =>
    simp only [process_batch_loop]
    split
    · exact ih m
    · split <;> simp [queueHeldAtBatchCalls, stepLock, ih]

/-- The single-event dispatch loop performs no `handle_batch` invocation, so
it scans clean from any lock state. -/
theorem process_event_loop_locks (now : Nat) (event : ChangeEvent)
    (hs : List Handler) (m : Metrics) (s : LockState) :
    queueHeldAtBatchCalls s ((process_event_loop now event hs m).2) = true := by
  induction hs generalizing m s with
  | nil => rfl
  | cons h rest ih =>
    simp only [process_event_loop]
    split
    · split <;> simp [queueHeldAtBatchCalls, stepLock, ih]
    · exact ih m s

/-- `_process_batch` entered with the queue lock held and the metrics lock
free keeps that state at every `handle_batch` invocation. -/
theorem process_batch_locks (now : Nat) (st : MgrState)
    (events : List ChangeEvent) :
    queueHeldAtBatchCalls ⟨true, false⟩ ((process_batch now st events).2)
      = true := by
  unfold process_batch
  split
  · rfl
  · simp [queueHeldAtBatchCalls, stepLock, process_batch_loop_locks]

/-- C1 (amended): on both flush paths — the size-triggered flush inside
`_handle_change` and the time-triggered flush inside `_batch_processor` —
every `handle_batch` invocation happens with the queue lock held (the
`_process_batch` call sits inside the `with queue_lock` block) while the
metrics lock is never held across an invocation; the metrics lock is taken
only around the counter updates after each handler returns. -/
theorem flush_lock_discipline (st : MgrState) (event : ChangeEvent)
    (now : Nat) :
    queueHeldAtBatchCalls ⟨false, false⟩ ((handle_change now st event).2)
        = true ∧
    queueHeldAtBatchCalls ⟨false, false⟩ ((batch_processor_flush now st).2)
        = true := by
  constructor
  · unfold handle_change
    simp only []
    split
    · split
      · simp [queueHeld_append, queueHeldAtBatchCalls, stepLock,
          process_batch_locks]
      · rfl
    · simp [queueHeld_append, queueHeldAtBatchCalls, stepLock, process_event,
        process_event_loop_locks]
  · unfold batch_processor_flush
    simp only []
    split
    · rfl
    · simp [queueHeld_append, queueHeldAtBatchCalls, stepLock,
        process_batch_locks]

/-- C1 counterexample: on both flush paths there is a `handle_batch`
invocation at which a lock (the queue lock) is held — refuting the claim
that neither lock is ever held during a handler invocation. -/
theorem flush_lock_discipline_counterexample :
    locksFreeAtBatchCalls ⟨false, false⟩ ((handle_change 0 exMgrFlush exEvent).2)
        = false ∧
    locksFreeAtBatchCalls ⟨false, false⟩ ((batch_processor_flush 0 exMgrQueued).2)
        = false :=
  ⟨rfl, rfl⟩

/-- Handlers whose filtered subset is empty or whose batch call succeeds
leave `events_failed` and the error log unchanged. -/
theorem process_batch_loop_ok_metrics (now : Nat) (events : List ChangeEvent)
    (hs : List Handler) (m : Metrics)
    (hok : ∀ h ∈ hs, events.filter h.can_handle = [] ∨
            h.handle_batch (events.filter h.can_handle) = .ok ()) :
    (process_batch_loop now events hs m).1.events_failed = m.events_failed ∧
    (process_batch_loop now events hs m).1.errors = m.errors := by
  induction hs generalizing m with
  | nil => exact ⟨rfl, rfl⟩
  | cons h rest ih =>
    have hh := hok h (List.mem_cons_self h rest)
    have hrest : ∀ h' ∈ rest, events.filter h'.can_handle = [] ∨
        h'.handle_batch (events.filter h'.can_handle) = .ok () :=
      fun h' hm => hok h' (List.mem_cons_of_mem h hm)
    simp only [process_batch_loop]
    split
    · exact ih m hrest
    case _ hne =>
      rcases hh with hemp | hokk
      · rw [hemp] at hne; simp at hne
      · split
        case _ => exact ih _ hrest
        case _ ee heq => rw [hokk] at heq; cases heq

/-- A handler with a non-empty subset whose batch call raises adds its
subset size to `events_failed` and appends its failure record; handlers
around it that are clean leave both untouched. -/
theorem process_batch_loop_one_error (now : Nat) (events : List ChangeEvent)
    (pre rest2 : List Handler) (A : Handler) (e : String) (m : Metrics)
    (hAne : (events.filter A.can_handle).isEmpty = false)
    (hAerr : A.handle_batch (events.filter A.can_handle) = .error e)
    (hok_pre : ∀ h ∈ pre, events.filter h.can_handle = [] ∨
        h.handle_batch (events.filter h.can_handle) = .ok ())
    (hok_rest : ∀ h ∈ rest2, events.filter h.can_handle = [] ∨
        h.handle_batch (events.filter h.can_handle) = .ok ()) :
    (process_batch_loop now events (pre ++ A :: rest2) m).1.events_failed
        = m.events_failed + (events.filter A.can_handle).length ∧
    (process_batch_loop now events (pre ++ A :: rest2) m).1.errors
        = m.errors ++ [⟨A.name, e, now,
            .batchDetail (events.filter A.can_handle).length⟩] := by
  induction pre generalizing m with
  | nil =>
    simp only [List.nil_append, process_batch_loop, hAne, Bool.false_eq_true,
      if_false, hAerr]
    constructor
    · rw [(process_batch_loop_ok_metrics now events rest2 _ hok_rest).1]
    · rw [(process_batch_loop_ok_metrics now events rest2 _ hok_rest).2]
  | cons h pre' ih =>
    have hh := hok_pre h (List.mem_cons_self h pre')
    have hok_pre' : ∀ h' ∈ pre', events.filter h'.can_handle = [] ∨
        h'.handle_batch (events.filter h'.can_handle) = .ok () :=
      fun h' hm => hok_pre h' (List.mem_cons_of_mem h hm)
    simp only [List.cons_append, process_batch_loop]
    split
    · exact ih m hok_pre'
    case _ hne =>
      rcases hh with hemp | hokk
      · rw [hemp] at hne; simp at hne
      · split
        case _ => exact ih _ hok_pre'
        case _ ee heq => rw [hokk] at heq; cases heq

/-- Every handler in the loop with a non-empty filtered subset is invoked
with exactly that subset, whatever the other handlers do. -/
theorem process_batch_loop_invokes (now : Nat) (events : List ChangeEvent)
    (hs : List Handler) (m : Metrics) (B : Handler) (hmem : B ∈ hs)
    (hne : (events.filter B.can_handle).isEmpty = false) :
    MgrAction.invokeHandleBatch B.name (events.filter B.can_handle)
      ∈ (process_batch_loop now events hs m).2 := by
  induction hs generalizing m with
  | nil => cases hmem
  | cons h rest ih =>
    rcases List.mem_cons.mp hmem with rfl | hmem'
    · simp only [process_batch_loop, hne, Bool.false_eq_true, if_false]
      split <;> exact List.mem_cons_self _ _
    · simp only [process_batch_loop]
      split
      · exact ih m hmem'
      · split <;>
          exact List.mem_cons_of_mem _ (List.mem_cons_of_mem _
            (List.mem_cons_of_mem _ (ih _ hmem')))

/-- C4: if handler A's batch call raises on its non-empty subset, a handler
B registered after A with a non-empty subset still receives exactly its
filtered subset of the same batch; the exception is absorbed into a failure
record carrying A's name, error text, timestamp and event count, and
`events_failed` grows by the size of A's subset (the other handlers being
clean). -/
theorem handler_fault_isolated (st : MgrState) (events : List ChangeEvent)
    (now : Nat) (pre mid post : List Handler) (A B : Handler) (e : String)
    (hh : st.handlers = pre ++ A :: (mid ++ B :: post))
    (hAne : (events.filter A.can_handle).isEmpty = false)
    (hAerr : A.handle_batch (events.filter A.can_handle) = .error e)
    (hBne : (events.filter B.can_handle).isEmpty = false)
    (hBok : B.handle_batch (events.filter B.can_handle) = .ok ())
    (hok : ∀ h ∈ pre ++ (mid ++ post),
      events.filter h.can_handle = [] ∨
      h.handle_batch (events.filter h.can_handle) = .ok ()) :
    MgrAction.invokeHandleBatch B.name (events.filter B.can_handle)
        ∈ (process_batch now st events).2 ∧
    (⟨A.name, e, now, .batchDetail (events.filter A.can_handle).length⟩ :
        ErrorRecord) ∈ (process_batch now st events).1.metrics.errors ∧
    (process_batch now st events).1.metrics.events_failed
        = st.metrics.events_failed + (events.filter A.can_handle).length := by
  have hene : events.isEmpty = false := by
    cases events with
    | nil => simp at hBne
    | cons a l => rfl
  have hpb : process_batch now st events
      = ({ st with metrics :=
            (process_batch_loop now events st.handlers st.metrics).1 },
         .processBatchCall events ::
           (process_batch_loop now events st.handlers st.metrics).2) := by
    unfold process_batch
    simp [hene]
  have hmemB : B ∈ st.handlers := by rw [hh]; simp
  have hok_pre : ∀ h ∈ pre, events.filter h.can_handle = [] ∨
      h.handle_batch (events.filter h.can_handle) = .ok () :=
    fun h hm => hok h (List.mem_append_left _ hm)
  have hok_rest : ∀ h ∈ mid ++ B :: post, events.filter h.can_handle = [] ∨
      h.handle_batch (events.filter h.can_handle) = .ok () := by
    intro h hm
    rcases List.mem_append.mp hm with hm1 | hm2
    · exact hok h (List.mem_append_right _ (List.mem_append_left _ hm1))
    · rcases List.mem_cons.mp hm2 with rfl | hm3
      · exact Or.inr hBok
      · exact hok h (List.mem_append_right _ (List.mem_append_right _ hm3))
  have hmet := process_batch_loop_one_error now events pre (mid ++ B :: post)
    A e st.metrics hAne hAerr hok_pre hok_rest
  rw [← hh] at hmet
  refine ⟨?_, ?_, ?_⟩
  · rw [hpb]
    exact List.mem_cons_of_mem _
      (process_batch_loop_invokes now events st.handlers st.metrics B hmemB hBne)
  · rw [hpb]
    show _ ∈ (process_batch_loop now events st.handlers st.metrics).1.errors
    rw [hmet.2]
    exact List.mem_append_right _ (List.mem_singleton.mpr rfl)
  · rw [hpb]
    exact hmet.1

/-- C4 witness: with the failing handler registered before the succeeding
one and a single accepted event, the second handler is still invoked, the
failure is recorded, and `events_failed` counts the one event. -/
theorem handler_fault_isolated_witness :
    MgrAction.invokeHandleBatch "GraphSyncHandler" [exEvent]
        ∈ (process_batch 0 exMgrTwo [exEvent]).2 ∧
    (⟨"EmbeddingSyncHandler", "boom", 0, .batchDetail 1⟩ : ErrorRecord)
        ∈ (process_batch 0 exMgrTwo [exEvent]).1.metrics.errors ∧
    (process_batch 0 exMgrTwo [exEvent]).1.metrics.events_failed = 1 :=
  handler_fault_isolated exMgrTwo [exEvent] 0 [] [] [] exHandlerFail
    exHandlerOk "boom" rfl rfl rfl rfl rfl
    (fun h hm => absurd hm (by simp))

end CDC

